import Mathlib

/-!
Shallow embedding of the viewport coordinate-transform and interaction engine
of the circe schematic editor (src/viewport.rs, src/viewport_free_aspect.rs)
and of the device identifier (src/schematic/devices/deviceinstance.rs).

The source computes with f32; the embedding idealises f32 arithmetic as real
arithmetic, which is the reading the specification itself takes (all of its
numeric properties are stated "within floating-point tolerance").  Machine
structures translate field by field:

  euclid Point2D/Vector2D  -> Pt
  euclid Box2D             -> Box
  euclid Transform2D       -> Affine2 (row-vector convention, like euclid:
                              p |-> (p.x*m11 + p.y*m21 + m31, p.x*m12 + p.y*m22 + m32))
  Viewport (viewport.rs)   -> UViewport
  Viewport (viewport_free_aspect.rs) -> FAViewport

Rust method names are kept in camel case (then_scale -> thenScale, ...).
-/

open scoped Classical

/-- Point or vector in a 2D space, models euclid Point2D and Vector2D over f32. -/
@[ext]
structure Pt where
  x : ℝ
  y : ℝ

instance : Sub Pt where
  sub a b := ⟨a.x - b.x, a.y - b.y⟩

instance : Add Pt where
  add a b := ⟨a.x + b.x, a.y + b.y⟩

theorem Pt.sub_def (a b : Pt) : a - b = ⟨a.x - b.x, a.y - b.y⟩ := rfl

theorem Pt.add_def (a b : Pt) : a + b = ⟨a.x + b.x, a.y + b.y⟩ := rfl

/-- euclid Vector2D::length, the euclidean norm. -/
noncomputable def Pt.length (v : Pt) : ℝ :=
  Real.sqrt (v.x ^ 2 + v.y ^ 2)

/-- Axis-aligned box, models euclid Box2D (fields min and max). -/
structure Box where
  lo : Pt
  hi : Pt

/-- euclid Box2D::from_points for two points: componentwise min and max. -/
noncomputable def Box.fromPoints (p q : Pt) : Box :=
  ⟨⟨min p.x q.x, min p.y q.y⟩, ⟨max p.x q.x, max p.y q.y⟩⟩

noncomputable def Box.width (b : Box) : ℝ := b.hi.x - b.lo.x

noncomputable def Box.height (b : Box) : ℝ := b.hi.y - b.lo.y

noncomputable def Box.center (b : Box) : Pt :=
  ⟨(b.lo.x + b.hi.x) / 2, (b.lo.y + b.hi.y) / 2⟩

/-- euclid Box2D::inflate: grow by w horizontally and h vertically. -/
noncomputable def Box.inflate (b : Box) (w h : ℝ) : Box :=
  ⟨⟨b.lo.x - w, b.lo.y - h⟩, ⟨b.hi.x + w, b.hi.y + h⟩⟩

/-- Affine map of the plane, models euclid Transform2D (row-vector convention). -/
@[ext]
structure Affine2 where
  m11 : ℝ
  m12 : ℝ
  m21 : ℝ
  m22 : ℝ
  m31 : ℝ
  m32 : ℝ

def Affine2.identity : Affine2 := ⟨1, 0, 0, 1, 0, 0⟩

/-- euclid Transform2D::transform_point. -/
noncomputable def Affine2.transformPoint (t : Affine2) (p : Pt) : Pt :=
  ⟨p.x * t.m11 + p.y * t.m21 + t.m31, p.x * t.m12 + p.y * t.m22 + t.m32⟩

/-- euclid Transform2D::transform_vector (no translation part). -/
noncomputable def Affine2.transformVector (t : Affine2) (v : Pt) : Pt :=
  ⟨v.x * t.m11 + v.y * t.m21, v.x * t.m12 + v.y * t.m22⟩

def Affine2.determinant (t : Affine2) : ℝ :=
  t.m11 * t.m22 - t.m12 * t.m21

/-- euclid Transform2D::then_scale: post-compose with a scale. -/
noncomputable def Affine2.thenScale (t : Affine2) (sx sy : ℝ) : Affine2 :=
  ⟨t.m11 * sx, t.m12 * sy, t.m21 * sx, t.m22 * sy, t.m31 * sx, t.m32 * sy⟩

/-- euclid Transform2D::then_translate: post-compose with a translation. -/
noncomputable def Affine2.thenTranslate (t : Affine2) (v : Pt) : Affine2 :=
  { t with m31 := t.m31 + v.x, m32 := t.m32 + v.y }

/-- euclid Transform2D::pre_translate: pre-compose with a translation. -/
noncomputable def Affine2.preTranslate (t : Affine2) (v : Pt) : Affine2 :=
  { t with
    m31 := t.m31 + v.x * t.m11 + v.y * t.m21
    m32 := t.m32 + v.x * t.m12 + v.y * t.m22 }

/-- euclid Transform2D::inverse: None exactly when the determinant vanishes. -/
noncomputable def Affine2.inverse (t : Affine2) : Option Affine2 :=
  if t.determinant = 0 then none
  else
    some
      ⟨t.m22 / t.determinant, -t.m12 / t.determinant, -t.m21 / t.determinant,
        t.m11 / t.determinant, (t.m21 * t.m32 - t.m22 * t.m31) / t.determinant,
        (t.m12 * t.m31 - t.m11 * t.m32) / t.determinant⟩

/-- Model of Option::unwrap on the inverse: total with a junk default, which
never surfaces on the invertible maps the engine commits (theorem
inversion_always_succeeds). -/
noncomputable def Affine2.invUnwrap (t : Affine2) : Affine2 :=
  t.inverse.getD Affine2.identity

/-- Rust f32::clamp (the source always calls it with lo <= hi). -/
noncomputable def rclamp (x lo hi : ℝ) : ℝ :=
  if x < lo then lo else if x > hi then hi else x

/-- Rust f32::round: round half away from zero; used for the schematic-space
component of the cursor tuple. -/
noncomputable def rround (x : ℝ) : ℤ :=
  if x < 0 then -round (-x) else round x

/-- Interaction state of the uniform viewport (State in viewport.rs; the
free-aspect file names the first variant Idle instead of None). -/
inductive VState where
  | null : VState
  | panning (csp : Pt) : VState
  | newView (vsp0 vsp1 : Pt) : VState

/-- Viewport message of the uniform viewport (Msg in viewport.rs). -/
inductive VMsg where
  | null : VMsg
  | newView (vct : Affine2) (zoomScale : ℝ) (curposCsp : Pt) : VMsg
  | cursorMoved (curposCsp : Pt) : VMsg

/-- IcedStruct::update clears the passive cache exactly on a NewView message:
the invalidation signal that marks the transform changed. -/
def VMsg.clearsPassive : VMsg → Bool
  | .newView _ _ _ => true
  | _ => false

/-- Canvas events the handler distinguishes (iced mouse/keyboard events). -/
inductive MouseButton where
  | left : MouseButton
  | middle : MouseButton
  | right : MouseButton
deriving DecidableEq

inductive Key where
  | escape : Key
  | f : Key
  | other : Key
deriving DecidableEq

inductive CEvent where
  | cursorMoved : CEvent
  | wheelScrolled (y : ℝ) : CEvent
  | buttonPressed (b : MouseButton) : CEvent
  | buttonReleased (b : MouseButton) : CEvent
  | keyPressed (k : Key) (modifiers : ℕ) : CEvent

/-- The uniform viewport engine (Viewport in viewport.rs).  The graphical
caches and the content are external collaborators; contentBounds stands for
content.bounds(), the only content call the handler makes. -/
structure UViewport where
  vct : Affine2
  zoomScale : ℝ
  curpos : Pt × Pt × ℤ × ℤ
  maxZoom : ℝ
  minZoom : ℝ
  scale : ℝ
  contentBounds : Box

/-- Viewport::new: the zoom scale cache is initialised from the determinant. -/
noncomputable def UViewport.new (scale minZoom maxZoom : ℝ) (vct : Affine2)
    (contentBounds : Box) : UViewport :=
  ⟨vct, Real.sqrt |vct.determinant|, (⟨0, 0⟩, ⟨0, 0⟩, 0, 0), maxZoom, minZoom, scale,
    contentBounds⟩

noncomputable def UViewport.vcScale (v : UViewport) : ℝ := v.zoomScale

/-- Viewport::cv_transform: self.vct.inverse().unwrap(). -/
noncomputable def UViewport.cvTransform (v : UViewport) : Affine2 :=
  v.vct.invUnwrap

/-- Viewport::curpos_update: recompute the cursor triple atomically. -/
noncomputable def UViewport.curposUpdate (v : UViewport) (csp1 : Pt) : UViewport :=
  let vsp1 := v.cvTransform.transformPoint csp1
  { v with curpos := (csp1, vsp1, rround vsp1.x, rround vsp1.y) }

/-- IcedStruct::update on the viewport message: commit a new transform pair
(and recompute the cursor under it), or just move the cursor. -/
noncomputable def UViewport.applyMsg (v : UViewport) : VMsg → UViewport
  | .null => v
  | .newView vct zoomScale csp =>
      ({ v with vct := vct, zoomScale := zoomScale }).curposUpdate csp
  | .cursorMoved csp => v.curposUpdate csp

/-- Viewport::bounds_transform: the fit-to-bounds algorithm. -/
noncomputable def UViewport.boundsTransform (v : UViewport) (csb vsb : Box) :
    Affine2 × ℝ :=
  let s := rclamp (min (csb.height / vsb.height) (csb.width / vsb.width))
    v.minZoom v.maxZoom
  let vct := Affine2.identity.thenScale s (-s)
  let w := csb.center - vct.transformPoint vsb.center
  (vct.thenTranslate w, s)

/-- Viewport::display_bounds. -/
noncomputable def UViewport.displayBounds (v : UViewport) (csb vsb : Box) (csp : Pt) :
    VMsg :=
  let p := v.boundsTransform csb vsb
  .newView p.1 p.2 csp

/-- Viewport::pan. -/
noncomputable def UViewport.pan (v : UViewport) (cspNow cspPrev : Pt) : VMsg :=
  let w := v.cvTransform.transformVector (cspNow - cspPrev)
  .newView (v.vct.preTranslate w) v.zoomScale cspNow

/-- Transform computed by Viewport::zoom: post-scale the current map, clamp
the requested scale on the determinant against the cached zoom scale, then
re-translate so the stored cursor viewport point keeps its stored canvas
point. -/
noncomputable def UViewport.zoomTransform (v : UViewport) (zoomScale : ℝ) : Affine2 :=
  let csp := v.curpos.1
  let vsp := v.curpos.2.1
  let scaledTransform := v.vct.thenScale zoomScale zoomScale
  let scaledDeterminant := |scaledTransform.determinant|
  let newTransform :=
    if scaledDeterminant < v.minZoom * v.minZoom then
      v.vct.thenScale (v.minZoom / v.vcScale) (v.minZoom / v.vcScale)
    else if scaledDeterminant ≤ v.maxZoom * v.maxZoom then scaledTransform
    else v.vct.thenScale (v.maxZoom / v.vcScale) (v.maxZoom / v.vcScale)
  let csp1 := newTransform.transformPoint vsp
  newTransform.thenTranslate (csp - csp1)

/-- Viewport::zoom: the committed zoom scale is recomputed from the final
determinant. -/
noncomputable def UViewport.zoom (v : UViewport) (zoomScale : ℝ) (curposCsp : Pt) :
    VMsg :=
  .newView (v.zoomTransform zoomScale)
    (Real.sqrt |(v.zoomTransform zoomScale).determinant|) curposCsp

/-- Viewport::events_handler: new interaction state and viewport message for
one canvas event (the content message is produced by the external content
collaborator and is not modelled). -/
noncomputable def UViewport.eventsHandler (v : UViewport) (st : VState) (e : CEvent)
    (boundsCsb : Box) (curposCsp : Pt) : VState × VMsg :=
  match st, e with
  | .null, .cursorMoved => (.null, .cursorMoved curposCsp)
  | s, .wheelScrolled y => (s, v.zoom (1 + rclamp y (-5) 5 / 5) curposCsp)
  | .null, .buttonPressed .middle => (.panning curposCsp, .null)
  | .panning cspPrev, .cursorMoved => (.panning curposCsp, v.pan curposCsp cspPrev)
  | .panning _, .buttonReleased .middle => (.null, .null)
  | .null, .buttonPressed .right =>
      let vsp := v.cvTransform.transformPoint curposCsp
      (.newView vsp vsp, .null)
  | .newView vsp0 _, .cursorMoved =>
      let vspNow := v.cvTransform.transformPoint curposCsp
      (.newView vsp0 (if (vspNow - vsp0).length > 10 then vspNow else vsp0),
        .cursorMoved curposCsp)
  | .newView vsp0 vsp1, .keyPressed k m =>
      (if k = .escape ∧ m = 0 then .null else .newView vsp0 vsp1, .null)
  | .newView vsp0 vsp1, .buttonReleased .right =>
      (.null,
        if vsp1 ≠ vsp0 then v.displayBounds boundsCsb (Box.fromPoints vsp0 vsp1) curposCsp
        else .null)
  | .null, .keyPressed .f _ =>
      (.null, v.displayBounds boundsCsb (v.contentBounds.inflate 5 5) v.curpos.1)
  | s, _ => (s, .null)

/-- One full engine round: canvas Program::update produces the viewport
message, IcedStruct::update applies it. -/
noncomputable def UViewport.step (v : UViewport) (st : VState) (e : CEvent)
    (boundsCsb : Box) (curposCsp : Pt) : UViewport × VState :=
  let r := v.eventsHandler st e boundsCsb curposCsp
  (v.applyMsg r.2, r.1)

/-- Wheel event as committed by events_handler plus update: the requested
factor is 1 + clamp(y, -5, 5)/5. -/
noncomputable def wheelFactor (y : ℝ) : ℝ := 1 + rclamp y (-5) 5 / 5

noncomputable def UViewport.wheelZoom (v : UViewport) (y : ℝ) (csp : Pt) : UViewport :=
  v.applyMsg (v.zoom (wheelFactor y) csp)

/-- A whole sequence of committed wheel zooms, each with its delta and cursor. -/
noncomputable def UViewport.zoomSeq (v : UViewport) (l : List (ℝ × Pt)) : UViewport :=
  l.foldl (fun w e => w.wheelZoom e.1 e.2) v

/-- Committed uniform scale: square root of the absolute determinant of the
viewport-to-canvas map (what the spec calls scale()). -/
noncomputable def UViewport.uscale (v : UViewport) : ℝ :=
  Real.sqrt |v.vct.determinant|

/-- Modelled from the spec: VCTransformFreeAspect lives in crate::transforms,
which is not under src/.  Per spec section 3 and 4.2 it is an affine
viewport-to-canvas map with independent x and y scale factors (y flipped,
since Viewport is y-up and Canvas is y-down) that must stay invertible; it
exposes the accessors viewport_free_aspect.rs calls: x_scale, y_scale,
then_scale, then_translate, pre_translate, transform_point, transform and
inverse_transform. -/
structure FreeAspect where
  xScale : ℝ
  yScale : ℝ
  tx : ℝ
  ty : ℝ

/-- Modelled from the spec: the underlying affine map, scale (xScale, -yScale)
followed by the translation (tx, ty). -/
noncomputable def FreeAspect.transform (t : FreeAspect) : Affine2 :=
  ⟨t.xScale, 0, 0, -t.yScale, t.tx, t.ty⟩

noncomputable def FreeAspect.transformPoint (t : FreeAspect) (p : Pt) : Pt :=
  t.transform.transformPoint p

/-- Modelled from the spec: post-compose with a scale, as euclid then_scale
does on the underlying map. -/
noncomputable def FreeAspect.thenScale (t : FreeAspect) (sx sy : ℝ) : FreeAspect :=
  ⟨t.xScale * sx, t.yScale * sy, t.tx * sx, t.ty * sy⟩

noncomputable def FreeAspect.thenTranslate (t : FreeAspect) (v : Pt) : FreeAspect :=
  { t with tx := t.tx + v.x, ty := t.ty + v.y }

noncomputable def FreeAspect.preTranslate (t : FreeAspect) (v : Pt) : FreeAspect :=
  { t with tx := t.tx + v.x * t.xScale, ty := t.ty - v.y * t.yScale }

/-- Modelled from the spec: inverse_transform is total because the map is
invariantly non-degenerate in both axes. -/
noncomputable def FreeAspect.inverseTransform (t : FreeAspect) : Affine2 :=
  ⟨1 / t.xScale, 0, 0, -(1 / t.yScale), -t.tx / t.xScale, t.ty / t.yScale⟩

/-- Viewport message of the free-aspect viewport (Msg in
viewport_free_aspect.rs; NewView carries no separate scale). -/
inductive FMsg where
  | null : FMsg
  | newView (vct : FreeAspect) (curposCsp : Pt) : FMsg
  | cursorMoved (curposCsp : Pt) : FMsg

/-- The free-aspect viewport engine (Viewport in viewport_free_aspect.rs). -/
structure FAViewport where
  vct : FreeAspect
  curpos : Pt × Pt × ℤ × ℤ
  maxZoom : ℝ
  minZoom : ℝ
  scale : ℝ
  contentBounds : Box

noncomputable def FAViewport.cvTransform (v : FAViewport) : Affine2 :=
  v.vct.inverseTransform

/-- Viewport::curpos_update of the free-aspect variant. -/
noncomputable def FAViewport.curposUpdate (v : FAViewport) (csp1 : Pt) : FAViewport :=
  let vsp1 := v.cvTransform.transformPoint csp1
  { v with curpos := (csp1, vsp1, rround vsp1.x, rround vsp1.y) }

noncomputable def FAViewport.applyMsg (v : FAViewport) : FMsg → FAViewport
  | .null => v
  | .newView vct csp => ({ v with vct := vct }).curposUpdate csp
  | .cursorMoved csp => v.curposUpdate csp

/-- Viewport::pan of the free-aspect variant. -/
noncomputable def FAViewport.pan (v : FAViewport) (cspNow cspPrev : Pt) : FMsg :=
  let w := v.cvTransform.transformVector (cspNow - cspPrev)
  .newView (v.vct.preTranslate w) cspNow

/-- Modelled from the spec: VCTransformFreeAspect::fit_bounds (crate::transforms,
not under src/) fits per axis, each factor clamped independently, then
translates the viewport center onto the canvas center. -/
noncomputable def FreeAspect.fitBounds (csb vsb : Box) (minZoom maxZoom : ℝ) :
    FreeAspect :=
  let sx := rclamp (csb.width / vsb.width) minZoom maxZoom
  let sy := rclamp (csb.height / vsb.height) minZoom maxZoom
  let base : FreeAspect := ⟨sx, sy, 0, 0⟩
  base.thenTranslate (csb.center - base.transformPoint vsb.center)

/-- Viewport::display_bounds of the free-aspect variant. -/
noncomputable def FAViewport.displayBounds (v : FAViewport) (csb vsb : Box) (csp : Pt) :
    FMsg :=
  .newView (FreeAspect.fitBounds csb vsb v.minZoom v.maxZoom) csp

/-- Transform computed by Viewport::zoom of the free-aspect variant: the x and
y factors are clamped independently against the per-axis scales, then the
fixed-point re-translation keeps the stored cursor viewport point at its
stored canvas point. -/
noncomputable def FAViewport.zoomTransform (v : FAViewport) (zoomScale : ℝ) :
    FreeAspect :=
  let csp := v.curpos.1
  let vsp := v.curpos.2.1
  let fx := rclamp (zoomScale * v.vct.xScale) v.minZoom v.maxZoom / v.vct.xScale
  let fy := rclamp (zoomScale * v.vct.yScale) v.minZoom v.maxZoom / v.vct.yScale
  let scaledTransform := v.vct.thenScale fx fy
  let csp1 := scaledTransform.transformPoint vsp
  scaledTransform.thenTranslate (csp - csp1)

noncomputable def FAViewport.zoom (v : FAViewport) (zoomScale : ℝ) (curposCsp : Pt) :
    FMsg :=
  .newView (v.zoomTransform zoomScale) curposCsp

/-- Viewport::events_handler of the free-aspect variant: identical state
machine; the cursor position is optional and nothing mutates without it. -/
noncomputable def FAViewport.eventsHandler (v : FAViewport) (st : VState) (e : CEvent)
    (boundsCsb : Box) (optCurposCsp : Option Pt) : VState × FMsg :=
  match optCurposCsp with
  | none => (st, .null)
  | some curposCsp =>
    match st, e with
    | .null, .cursorMoved => (.null, .cursorMoved curposCsp)
    | s, .wheelScrolled y => (s, v.zoom (1 + rclamp y (-5) 5 / 5) curposCsp)
    | .null, .buttonPressed .middle => (.panning curposCsp, .null)
    | .panning cspPrev, .cursorMoved => (.panning curposCsp, v.pan curposCsp cspPrev)
    | .panning _, .buttonReleased .middle => (.null, .null)
    | .null, .buttonPressed .right =>
        let vsp := v.cvTransform.transformPoint curposCsp
        (.newView vsp vsp, .null)
    | .newView vsp0 _, .cursorMoved =>
        let vspNow := v.cvTransform.transformPoint curposCsp
        (.newView vsp0 (if (vspNow - vsp0).length > 10 then vspNow else vsp0),
          .cursorMoved curposCsp)
    | .newView vsp0 vsp1, .keyPressed k m =>
        (if k = .escape ∧ m = 0 then .null else .newView vsp0 vsp1, .null)
    | .newView vsp0 vsp1, .buttonReleased .right =>
        (.null,
          if vsp1 ≠ vsp0 then
            v.displayBounds boundsCsb (Box.fromPoints vsp0 vsp1) curposCsp
          else .null)
    | .null, .keyPressed .f _ =>
        (.null, v.displayBounds boundsCsb (v.contentBounds.inflate 5 5) v.curpos.1)
    | s, _ => (s, .null)

/-- Device identifier (deviceinstance.rs): an NgSpice type prefix, a numeric
ordinal, and an optional user-set custom string. -/
structure Identifier where
  idPrefix : String
  id : ℕ
  custom : Option String

/-- Identifier::ng_id: the rendered NgSpice id string, prefix followed by the
custom string when set and the decimal ordinal otherwise. -/
def Identifier.ngId (x : Identifier) : String :=
  x.idPrefix ++
    match x.custom with
    | some s => s
    | none => toString x.id

/-- PartialEq for Identifier compares the rendered strings. -/
def Identifier.eqv (a b : Identifier) : Prop :=
  a.ngId = b.ngId

/-- Hash for Identifier feeds the rendered string to the hasher, here an
arbitrary function from strings. -/
def Identifier.hashWith (h : String → ℕ) (x : Identifier) : ℕ :=
  h x.ngId

/-! Helper lemmas about the geometry and the zoom algorithm. -/

theorem Affine2.det_thenScale (t : Affine2) (sx sy : ℝ) :
    (t.thenScale sx sy).determinant = t.determinant * (sx * sy) := by
  simp only [Affine2.thenScale, Affine2.determinant]
  ring

theorem Affine2.det_thenTranslate (t : Affine2) (v : Pt) :
    (t.thenTranslate v).determinant = t.determinant := rfl

theorem Affine2.det_preTranslate (t : Affine2) (v : Pt) :
    (t.preTranslate v).determinant = t.determinant := rfl

/-- Post-translating a map so that p lands on c indeed sends p to c. -/
theorem Affine2.thenTranslate_fix (t : Affine2) (c p : Pt) :
    (t.thenTranslate (c - t.transformPoint p)).transformPoint p = c := by
  ext <;> simp [Affine2.thenTranslate, Affine2.transformPoint, Pt.sub_def] <;> ring

/-- The unwrapped inverse is a left inverse on points whenever the determinant
does not vanish. -/
theorem Affine2.invUnwrap_transformPoint (t : Affine2) (hd : t.determinant ≠ 0)
    (p : Pt) : t.invUnwrap.transformPoint (t.transformPoint p) = p := by
  have hd' : t.m11 * t.m22 - t.m12 * t.m21 ≠ 0 := hd
  simp only [Affine2.invUnwrap, Affine2.inverse, if_neg hd, Option.getD_some]
  ext <;> simp only [Affine2.transformPoint, Affine2.determinant] <;>
    field_simp <;> ring

theorem rclamp_le (x lo hi : ℝ) (h : lo ≤ hi) : rclamp x lo hi ≤ hi := by
  unfold rclamp
  split_ifs <;> linarith

theorem le_rclamp (x lo hi : ℝ) (h : lo ≤ hi) : lo ≤ rclamp x lo hi := by
  unfold rclamp
  split_ifs <;> linarith

theorem wheelFactor_nonneg (y : ℝ) : 0 ≤ wheelFactor y := by
  have h1 : (-5 : ℝ) ≤ rclamp y (-5) 5 := le_rclamp y (-5) 5 (by norm_num)
  unfold wheelFactor
  linarith

theorem wheelFactor_le_two (y : ℝ) : wheelFactor y ≤ 2 := by
  have h1 : rclamp y (-5) 5 ≤ 5 := rclamp_le y (-5) 5 (by norm_num)
  unfold wheelFactor
  linarith

/-- Scale evolution of one committed uniform zoom, as a function of the
previous committed scale s and the requested factor k. -/
noncomputable def scaleNext (lo hi s k : ℝ) : ℝ :=
  if s * k < lo then lo else if s * k ≤ hi then s * k else hi

theorem scaleNext_bounds (lo hi s k : ℝ) (h : lo ≤ hi) :
    lo ≤ scaleNext lo hi s k ∧ scaleNext lo hi s k ≤ hi := by
  unfold scaleNext
  split_ifs <;> constructor <;> linarith

/-- Engine invariant of the uniform viewport: positive ordered zoom bounds,
cached zoom scale consistent with the committed map, and in bounds. -/
def UViewport.StateInv (v : UViewport) : Prop :=
  0 < v.minZoom ∧ v.minZoom ≤ v.maxZoom ∧ v.zoomScale = v.uscale ∧
    v.minZoom ≤ v.zoomScale ∧ v.zoomScale ≤ v.maxZoom

theorem UViewport.abs_det_zoomTransform (v : UViewport) (k : ℝ) (hk : 0 ≤ k)
    (hsi : v.StateInv) :
    |(v.zoomTransform k).determinant|
      = scaleNext v.minZoom v.maxZoom v.uscale k ^ 2 := by
  obtain ⟨hlo, hlh, hz, hsl, hsh⟩ := hsi
  have hs0 : 0 < v.uscale := lt_of_lt_of_le hlo (hz ▸ hsl)
  have habs : |v.vct.determinant| = v.uscale ^ 2 := by
    rw [UViewport.uscale, Real.sq_sqrt (abs_nonneg _)]
  have hcond : |(v.vct.thenScale k k).determinant| = (v.uscale * k) ^ 2 := by
    rw [Affine2.det_thenScale, abs_mul, habs, abs_of_nonneg (mul_self_nonneg k)]
    ring
  have hvc : v.vcScale = v.uscale := hz
  unfold UViewport.zoomTransform
  rw [Affine2.det_thenTranslate]
  split_ifs with h1 h2
  · rw [hcond] at h1
    have hlt : v.uscale * k < v.minZoom := by
      nlinarith [mul_nonneg hs0.le hk]
    rw [scaleNext, if_pos hlt, hvc, Affine2.det_thenScale, abs_mul, habs,
      abs_of_nonneg (mul_self_nonneg _)]
    field_simp
    ring
  · rw [hcond] at h1 h2
    have hge : ¬v.uscale * k < v.minZoom := by
      intro hcon
      exact h1 (by nlinarith [mul_nonneg hs0.le hk])
    have hle : v.uscale * k ≤ v.maxZoom := by
      nlinarith [mul_nonneg hs0.le hk, lt_of_lt_of_le hlo hlh]
    rw [scaleNext, if_neg hge, if_pos hle, hcond]
  · rw [hcond] at h1 h2
    have hhi0 : 0 < v.maxZoom := lt_of_lt_of_le hlo hlh
    have hgt : v.maxZoom < v.uscale * k := by
      nlinarith [mul_nonneg hs0.le hk]
    have hge : ¬v.uscale * k < v.minZoom := by
      intro hcon
      linarith [lt_of_le_of_lt hlh hgt]
    rw [scaleNext, if_neg hge, if_neg (not_le.mpr hgt), hvc,
      Affine2.det_thenScale, abs_mul, habs, abs_of_nonneg (mul_self_nonneg _)]
    field_simp
    ring

theorem UViewport.wheelZoom_vct (v : UViewport) (y : ℝ) (csp : Pt) :
    (v.wheelZoom y csp).vct = v.zoomTransform (wheelFactor y) := rfl

theorem UViewport.wheelZoom_zoomScale (v : UViewport) (y : ℝ) (csp : Pt) :
    (v.wheelZoom y csp).zoomScale
      = Real.sqrt |(v.zoomTransform (wheelFactor y)).determinant| := rfl

theorem UViewport.wheelZoom_minZoom (v : UViewport) (y : ℝ) (csp : Pt) :
    (v.wheelZoom y csp).minZoom = v.minZoom := rfl

theorem UViewport.wheelZoom_maxZoom (v : UViewport) (y : ℝ) (csp : Pt) :
    (v.wheelZoom y csp).maxZoom = v.maxZoom := rfl

/-- One committed wheel zoom preserves the engine invariant and moves the
committed scale to scaleNext of the old scale. -/
theorem UViewport.wheelZoom_step (v : UViewport) (y : ℝ) (csp : Pt)
    (hsi : v.StateInv) :
    (v.wheelZoom y csp).StateInv ∧
      (v.wheelZoom y csp).uscale
        = scaleNext v.minZoom v.maxZoom v.uscale (wheelFactor y) := by
  have hdet := v.abs_det_zoomTransform (wheelFactor y) (wheelFactor_nonneg y) hsi
  obtain ⟨hlo, hlh, hz, hsl, hsh⟩ := hsi
  have hbounds := scaleNext_bounds v.minZoom v.maxZoom v.uscale (wheelFactor y) hlh
  have hsn0 : 0 ≤ scaleNext v.minZoom v.maxZoom v.uscale (wheelFactor y) :=
    le_trans hlo.le hbounds.1
  have hus : (v.wheelZoom y csp).uscale
      = scaleNext v.minZoom v.maxZoom v.uscale (wheelFactor y) := by
    rw [UViewport.uscale, UViewport.wheelZoom_vct, hdet, Real.sqrt_sq hsn0]
  have hzs : (v.wheelZoom y csp).zoomScale = (v.wheelZoom y csp).uscale := by
    rw [UViewport.wheelZoom_zoomScale, hus, hdet, Real.sqrt_sq hsn0]
  refine ⟨⟨?_, ?_, hzs, ?_, ?_⟩, hus⟩
  · rw [UViewport.wheelZoom_minZoom]; exact hlo
  · rw [UViewport.wheelZoom_minZoom, UViewport.wheelZoom_maxZoom]; exact hlh
  · rw [UViewport.wheelZoom_minZoom, hzs, hus]; exact hbounds.1
  · rw [UViewport.wheelZoom_maxZoom, hzs, hus]; exact hbounds.2

theorem UViewport.zoomSeq_inv (l : List (ℝ × Pt)) :
    ∀ v : UViewport, v.StateInv →
      (v.zoomSeq l).StateInv ∧ (v.zoomSeq l).minZoom = v.minZoom ∧
        (v.zoomSeq l).maxZoom = v.maxZoom := by
  induction l with
  | nil => exact fun v h => ⟨h, rfl, rfl⟩
  | cons e t ih =>
      intro v h
      have hstep := UViewport.wheelZoom_step v e.1 e.2 h
      have hrec := ih (v.wheelZoom e.1 e.2) hstep.1
      have hseq : v.zoomSeq (e :: t) = (v.wheelZoom e.1 e.2).zoomSeq t := rfl
      rw [hseq]
      exact ⟨hrec.1, by rw [hrec.2.1, UViewport.wheelZoom_minZoom],
        by rw [hrec.2.2, UViewport.wheelZoom_maxZoom]⟩

/-- Claim C1: in the uniform viewport, for every sequence of committed zoom
operations (each driven by a wheel delta y, requesting factor
1 + clamp(y, -5, 5)/5), if the committed scale (the square root of the
absolute determinant of the viewport-to-canvas map, cached consistently)
starts within [min_zoom, max_zoom] with 0 < min_zoom <= max_zoom, then the
committed scale after the sequence, hence after every zoom of it, stays
within [min_zoom, max_zoom]. -/
theorem scale_clamping_invariant (v : UViewport) (l : List (ℝ × Pt))
    (h1 : 0 < v.minZoom) (h2 : v.minZoom ≤ v.maxZoom) (h3 : v.zoomScale = v.uscale)
    (h4 : v.minZoom ≤ v.uscale) (h5 : v.uscale ≤ v.maxZoom) :
    v.minZoom ≤ (v.zoomSeq l).uscale ∧ (v.zoomSeq l).uscale ≤ v.maxZoom := by
  have hsi : v.StateInv := ⟨h1, h2, h3, h3 ▸ h4, h3 ▸ h5⟩
  obtain ⟨⟨_, _, hz, hl, hh⟩, hmin, hmax⟩ := UViewport.zoomSeq_inv l v hsi
  rw [hz] at hl hh
  rw [hmin] at hl
  rw [hmax] at hh
  exact ⟨hl, hh⟩

/-- Concrete instance of scale_clamping_invariant: the freshly constructed
viewport with identity map and bounds [1, 2] zoomed once by wheel delta 5. -/
theorem scale_clamping_invariant_witness :
    (0 : ℝ) < 1 ∧ (1 : ℝ) ≤ 2 ∧
      (UViewport.new 1 1 2 Affine2.identity ⟨⟨0, 0⟩, ⟨0, 0⟩⟩).zoomScale
        = (UViewport.new 1 1 2 Affine2.identity ⟨⟨0, 0⟩, ⟨0, 0⟩⟩).uscale ∧
      (1 : ℝ) ≤ (UViewport.new 1 1 2 Affine2.identity ⟨⟨0, 0⟩, ⟨0, 0⟩⟩).uscale ∧
      (UViewport.new 1 1 2 Affine2.identity ⟨⟨0, 0⟩, ⟨0, 0⟩⟩).uscale ≤ 2 ∧
      ((1 : ℝ) ≤
          ((UViewport.new 1 1 2 Affine2.identity ⟨⟨0, 0⟩, ⟨0, 0⟩⟩).zoomSeq
            [(5, ⟨0, 0⟩)]).uscale ∧
        ((UViewport.new 1 1 2 Affine2.identity ⟨⟨0, 0⟩, ⟨0, 0⟩⟩).zoomSeq
            [(5, ⟨0, 0⟩)]).uscale ≤ 2) := by
  have hu : (UViewport.new 1 1 2 Affine2.identity ⟨⟨0, 0⟩, ⟨0, 0⟩⟩).uscale = 1 := by
    simp [UViewport.uscale, UViewport.new, Affine2.identity, Affine2.determinant]
  have hz : (UViewport.new 1 1 2 Affine2.identity ⟨⟨0, 0⟩, ⟨0, 0⟩⟩).zoomScale
      = (UViewport.new 1 1 2 Affine2.identity ⟨⟨0, 0⟩, ⟨0, 0⟩⟩).uscale := by
    simp [UViewport.uscale, UViewport.new]
  refine ⟨by norm_num, by norm_num, hz, by rw [hu], by rw [hu]; norm_num, ?_⟩
  exact scale_clamping_invariant _ [(5, ⟨0, 0⟩)] (by norm_num [UViewport.new])
    (by norm_num [UViewport.new]) hz (by rw [hu]; norm_num [UViewport.new])
    (by rw [hu]; norm_num [UViewport.new])

/-- Claim C2: the transform produced by a uniform zoom, in every branch of the
clamping (the re-translation is applied after the clamp), maps the cursor
viewport point of the engine cursor tuple back to its canvas point: with the
tuple consistent with the current map, to_canvas(to_viewport(c)) = c. -/
theorem zoom_fixed_point (v : UViewport) (k : ℝ) (csp : Pt)
    (hc : v.vct.transformPoint v.curpos.2.1 = v.curpos.1) :
    (v.zoomTransform k).transformPoint v.curpos.2.1 = v.curpos.1 ∧
      v.zoom k csp
        = VMsg.newView (v.zoomTransform k)
            (Real.sqrt |(v.zoomTransform k).determinant|) csp := by
  constructor
  · unfold UViewport.zoomTransform
    exact Affine2.thenTranslate_fix _ _ _
  · rfl

/-- Concrete instance of zoom_fixed_point: identity transform, cursor at the
origin in both spaces, factor 2. -/
theorem zoom_fixed_point_witness :
    (UViewport.new 1 1 2 Affine2.identity ⟨⟨0, 0⟩, ⟨0, 0⟩⟩).vct.transformPoint
        (UViewport.new 1 1 2 Affine2.identity ⟨⟨0, 0⟩, ⟨0, 0⟩⟩).curpos.2.1
      = (UViewport.new 1 1 2 Affine2.identity ⟨⟨0, 0⟩, ⟨0, 0⟩⟩).curpos.1 ∧
      ((UViewport.new 1 1 2 Affine2.identity ⟨⟨0, 0⟩, ⟨0, 0⟩⟩).zoomTransform
          2).transformPoint
          (UViewport.new 1 1 2 Affine2.identity ⟨⟨0, 0⟩, ⟨0, 0⟩⟩).curpos.2.1
        = (UViewport.new 1 1 2 Affine2.identity ⟨⟨0, 0⟩, ⟨0, 0⟩⟩).curpos.1 := by
  have hc : (UViewport.new 1 1 2 Affine2.identity ⟨⟨0, 0⟩, ⟨0, 0⟩⟩).vct.transformPoint
      (UViewport.new 1 1 2 Affine2.identity ⟨⟨0, 0⟩, ⟨0, 0⟩⟩).curpos.2.1
      = (UViewport.new 1 1 2 Affine2.identity ⟨⟨0, 0⟩, ⟨0, 0⟩⟩).curpos.1 := by
    ext <;> simp [UViewport.new, Affine2.identity, Affine2.transformPoint]
  exact ⟨hc, (zoom_fixed_point _ 2 ⟨0, 0⟩ hc).1⟩

/-- States reachable from a sanely configured construction through the engine
operations: committed wheel zooms with any delta (including y = -5, whose
requested factor is 0), pans, fit-to-bounds, and cursor moves. -/
inductive UViewport.Reachable : UViewport → Prop where
  | init (scale minZoom maxZoom : ℝ) (vct : Affine2) (cb : Box)
      (h1 : 0 < minZoom) (h2 : minZoom ≤ maxZoom)
      (h3 : minZoom ≤ Real.sqrt |vct.determinant|)
      (h4 : Real.sqrt |vct.determinant| ≤ maxZoom) :
      UViewport.Reachable (UViewport.new scale minZoom maxZoom vct cb)
  | zoomStep (v : UViewport) (y : ℝ) (csp : Pt) :
      UViewport.Reachable v → UViewport.Reachable (v.wheelZoom y csp)
  | panStep (v : UViewport) (a b : Pt) :
      UViewport.Reachable v → UViewport.Reachable (v.applyMsg (v.pan a b))
  | fitStep (v : UViewport) (csb vsb : Box) (csp : Pt) :
      UViewport.Reachable v →
      UViewport.Reachable (v.applyMsg (v.displayBounds csb vsb csp))
  | moveStep (v : UViewport) (csp : Pt) :
      UViewport.Reachable v → UViewport.Reachable (v.applyMsg (.cursorMoved csp))

theorem UViewport.reachable_inv (v : UViewport) (h : v.Reachable) : v.StateInv := by
  induction h with
  | init scale minZoom maxZoom vct cb h1 h2 h3 h4 => exact ⟨h1, h2, rfl, h3, h4⟩
  | zoomStep v y csp _ ih => exact (UViewport.wheelZoom_step v y csp ih).1
  | panStep v a b _ ih =>
      obtain ⟨h1, h2, h3, h4, h5⟩ := ih
      have hvct : (v.applyMsg (v.pan a b)).vct
          = v.vct.preTranslate (v.cvTransform.transformVector (a - b)) := rfl
      have hzs : (v.applyMsg (v.pan a b)).zoomScale = v.zoomScale := rfl
      have hus : (v.applyMsg (v.pan a b)).uscale = v.uscale := by
        rw [UViewport.uscale, hvct, Affine2.det_preTranslate, UViewport.uscale]
      exact ⟨h1, h2, by rw [hzs, hus, h3], by rw [hzs]; exact h4, by rw [hzs]; exact h5⟩
  | fitStep v csb vsb csp _ ih =>
      obtain ⟨h1, h2, h3, h4, h5⟩ := ih
      have hs := le_rclamp (min (csb.height / vsb.height) (csb.width / vsb.width))
        v.minZoom v.maxZoom h2
      have hs' := rclamp_le (min (csb.height / vsb.height) (csb.width / vsb.width))
        v.minZoom v.maxZoom h2
      have hzs : (v.applyMsg (v.displayBounds csb vsb csp)).zoomScale
          = rclamp (min (csb.height / vsb.height) (csb.width / vsb.width))
            v.minZoom v.maxZoom := rfl
      have hus : (v.applyMsg (v.displayBounds csb vsb csp)).uscale
          = rclamp (min (csb.height / vsb.height) (csb.width / vsb.width))
            v.minZoom v.maxZoom := by
        have hvct : (v.applyMsg (v.displayBounds csb vsb csp)).vct
            = (Affine2.identity.thenScale
                (rclamp (min (csb.height / vsb.height) (csb.width / vsb.width))
                  v.minZoom v.maxZoom)
                (-rclamp (min (csb.height / vsb.height) (csb.width / vsb.width))
                  v.minZoom v.maxZoom)).thenTranslate
              (csb.center -
                (Affine2.identity.thenScale
                    (rclamp (min (csb.height / vsb.height) (csb.width / vsb.width))
                      v.minZoom v.maxZoom)
                    (-rclamp (min (csb.height / vsb.height) (csb.width / vsb.width))
                      v.minZoom v.maxZoom)).transformPoint vsb.center) := rfl
        rw [UViewport.uscale, hvct, Affine2.det_thenTranslate, Affine2.det_thenScale]
        have : Affine2.identity.determinant = 1 := by
          simp [Affine2.identity, Affine2.determinant]
        rw [this]
        rw [show (1 : ℝ) *
            (rclamp (min (csb.height / vsb.height) (csb.width / vsb.width))
                v.minZoom v.maxZoom *
              -rclamp (min (csb.height / vsb.height) (csb.width / vsb.width))
                v.minZoom v.maxZoom)
            = -(rclamp (min (csb.height / vsb.height) (csb.width / vsb.width))
                v.minZoom v.maxZoom ^ 2) by ring]
        rw [abs_neg, abs_of_nonneg (sq_nonneg _), Real.sqrt_sq (by linarith)]
      exact ⟨h1, h2, by rw [hzs, hus], by rw [hzs]; exact hs, by rw [hzs]; exact hs'⟩
  | moveStep v csp _ ih =>
      obtain ⟨h1, h2, h3, h4, h5⟩ := ih
      exact ⟨h1, h2, h3, h4, h5⟩

/-- Claim C6: in every state reachable through construction and the engine
operations (zoom at any wheel delta including y = -5, pan, fit-to-bounds,
cursor moves), the stored viewport-to-canvas map has nonzero determinant, so
inverting it (the unwrap in cv_transform) succeeds. -/
theorem inversion_always_succeeds (v : UViewport) (h : v.Reachable) :
    v.vct.inverse.isSome = true ∧ v.vct.determinant ≠ 0 := by
  obtain ⟨h1, h2, h3, h4, h5⟩ := v.reachable_inv h
  have hpos : 0 < v.uscale := lt_of_lt_of_le h1 (h3 ▸ h4)
  have hd : v.vct.determinant ≠ 0 := by
    intro h0
    rw [UViewport.uscale, h0] at hpos
    simp at hpos
  exact ⟨by simp [Affine2.inverse, hd], hd⟩

/-- Concrete instance of inversion_always_succeeds: a fresh viewport zoomed
once with the extreme wheel delta y = -5 (requested factor 0). -/
theorem inversion_always_succeeds_witness :
    ((UViewport.new 1 1 2 Affine2.identity ⟨⟨0, 0⟩, ⟨0, 0⟩⟩).wheelZoom (-5)
        ⟨0, 0⟩).Reachable ∧
      (((UViewport.new 1 1 2 Affine2.identity ⟨⟨0, 0⟩, ⟨0, 0⟩⟩).wheelZoom (-5)
            ⟨0, 0⟩).vct.inverse.isSome = true ∧
        ((UViewport.new 1 1 2 Affine2.identity ⟨⟨0, 0⟩, ⟨0, 0⟩⟩).wheelZoom (-5)
            ⟨0, 0⟩).vct.determinant ≠ 0) := by
  have hone : Real.sqrt |Affine2.identity.determinant| = 1 := by
    norm_num [Affine2.identity, Affine2.determinant, Real.sqrt_one]
  have hreach : ((UViewport.new 1 1 2 Affine2.identity ⟨⟨0, 0⟩, ⟨0, 0⟩⟩).wheelZoom
      (-5) ⟨0, 0⟩).Reachable :=
    UViewport.Reachable.zoomStep _ (-5) ⟨0, 0⟩
      (UViewport.Reachable.init 1 1 2 Affine2.identity ⟨⟨0, 0⟩, ⟨0, 0⟩⟩
        (by norm_num) (by norm_num) (by rw [hone]) (by rw [hone]; norm_num))
  exact ⟨hreach, inversion_always_succeeds _ hreach⟩

/-- Claim C5: bounds_transform returns the clamped min-ratio scale, the map
scale(s, -s) then translate by the vector taking the scaled viewport center
to the canvas center (so the centers coincide), and on the 800x600 canvas
with viewport box (0,0)-(40,30) and 20 inside the clamp bounds it returns
scale 20 and maps (20,15) to (400,300). -/
theorem fit_bounds_spec (v : UViewport) (csb vsb : Box) (hw : 0 < vsb.width)
    (hh : 0 < vsb.height) :
    (v.boundsTransform csb vsb).2
        = rclamp (min (csb.height / vsb.height) (csb.width / vsb.width))
          v.minZoom v.maxZoom ∧
      (v.boundsTransform csb vsb).1
        = (Affine2.identity.thenScale (v.boundsTransform csb vsb).2
              (-(v.boundsTransform csb vsb).2)).thenTranslate
            (csb.center -
              (Affine2.identity.thenScale (v.boundsTransform csb vsb).2
                  (-(v.boundsTransform csb vsb).2)).transformPoint vsb.center) ∧
      (v.boundsTransform csb vsb).1.transformPoint vsb.center = csb.center ∧
      (v.minZoom ≤ 20 → (20 : ℝ) ≤ v.maxZoom →
        (v.boundsTransform ⟨⟨0, 0⟩, ⟨800, 600⟩⟩ ⟨⟨0, 0⟩, ⟨40, 30⟩⟩).2 = 20 ∧
          (v.boundsTransform ⟨⟨0, 0⟩, ⟨800, 600⟩⟩
              ⟨⟨0, 0⟩, ⟨40, 30⟩⟩).1.transformPoint ⟨20, 15⟩ = ⟨400, 300⟩) := by
  refine ⟨rfl, rfl, Affine2.thenTranslate_fix _ _ _, fun h20lo h20hi => ?_⟩
  have hs : (v.boundsTransform ⟨⟨0, 0⟩, ⟨800, 600⟩⟩ ⟨⟨0, 0⟩, ⟨40, 30⟩⟩).2 = 20 := by
    show rclamp (min ((600 - 0) / (30 - 0)) ((800 - 0) / (40 - 0)))
      v.minZoom v.maxZoom = 20
    rw [show min ((600 - 0 : ℝ) / (30 - 0)) ((800 - 0) / (40 - 0)) = 20 by norm_num]
    rw [rclamp, if_neg (by linarith), if_neg (by linarith)]
  refine ⟨hs, ?_⟩
  have hvc : (⟨⟨0, 0⟩, ⟨40, 30⟩⟩ : Box).center = ⟨20, 15⟩ := by
    ext <;> norm_num [Box.center]
  have hcc : (⟨⟨0, 0⟩, ⟨800, 600⟩⟩ : Box).center = ⟨400, 300⟩ := by
    ext <;> norm_num [Box.center]
  rw [← hvc, ← hcc]
  exact Affine2.thenTranslate_fix _ _ _

/-- Concrete instance of fit_bounds_spec at the scenario boxes with clamp
bounds [1, 100]. -/
theorem fit_bounds_spec_witness :
    (0 : ℝ) < (⟨⟨0, 0⟩, ⟨40, 30⟩⟩ : Box).width ∧
      (0 : ℝ) < (⟨⟨0, 0⟩, ⟨40, 30⟩⟩ : Box).height ∧
      ((UViewport.new 1 1 100 Affine2.identity
            ⟨⟨0, 0⟩, ⟨0, 0⟩⟩).boundsTransform ⟨⟨0, 0⟩, ⟨800, 600⟩⟩
            ⟨⟨0, 0⟩, ⟨40, 30⟩⟩).1.transformPoint (⟨⟨0, 0⟩, ⟨40, 30⟩⟩ : Box).center
        = (⟨⟨0, 0⟩, ⟨800, 600⟩⟩ : Box).center := by
  have hw : (0 : ℝ) < (⟨⟨0, 0⟩, ⟨40, 30⟩⟩ : Box).width := by norm_num [Box.width]
  have hh : (0 : ℝ) < (⟨⟨0, 0⟩, ⟨40, 30⟩⟩ : Box).height := by norm_num [Box.height]
  exact ⟨hw, hh,
    (fit_bounds_spec (UViewport.new 1 1 100 Affine2.identity ⟨⟨0, 0⟩, ⟨0, 0⟩⟩)
        ⟨⟨0, 0⟩, ⟨800, 600⟩⟩ ⟨⟨0, 0⟩, ⟨40, 30⟩⟩ hw hh).2.2.1⟩

/-- Claim C7: a right-button release in state NewView(p0, p1) always returns
the state machine to Idle; when p1 differs from p0 it emits the fit-to-bounds
transform change for box(p0, p1) (which marks the transform changed, clearing
the passive cache); when p1 equals p0 it emits no message at all. -/
theorem degenerate_marquee_noop (v : UViewport) (p0 p1 : Pt) (csb : Box) (csp : Pt) :
    (v.eventsHandler (.newView p0 p1) (.buttonReleased .right) csb csp).1
        = VState.null ∧
      (p1 = p0 →
        (v.eventsHandler (.newView p0 p1) (.buttonReleased .right) csb csp).2
          = VMsg.null) ∧
      (p1 ≠ p0 →
        (v.eventsHandler (.newView p0 p1) (.buttonReleased .right) csb csp).2
            = v.displayBounds csb (Box.fromPoints p0 p1) csp ∧
          ((v.eventsHandler (.newView p0 p1)
              (.buttonReleased .right) csb csp).2).clearsPassive = true) := by
  refine ⟨rfl, fun h => ?_, fun h => ⟨?_, ?_⟩⟩
  · simp [UViewport.eventsHandler, h]
  · simp [UViewport.eventsHandler, h]
  · simp [UViewport.eventsHandler, h, UViewport.displayBounds, VMsg.clearsPassive]

/-- Counterexample to claim C8 as stated: an Escape key press carried by a
nonzero modifier bitset (here 1) in state NewView does not cancel the
marquee — the handler cancels only when modifiers.bits() == 0, so the state
stays NewView instead of returning to Idle. -/
theorem escape_cancels_marquee_cex :
    ((UViewport.new 1 1 2 Affine2.identity ⟨⟨0, 0⟩, ⟨0, 0⟩⟩).eventsHandler
          (.newView ⟨0, 0⟩ ⟨1, 1⟩) (.keyPressed .escape 1)
          ⟨⟨0, 0⟩, ⟨800, 600⟩⟩ ⟨5, 5⟩).1
        = VState.newView ⟨0, 0⟩ ⟨1, 1⟩ ∧
      ¬((UViewport.new 1 1 2 Affine2.identity ⟨⟨0, 0⟩, ⟨0, 0⟩⟩).eventsHandler
            (.newView ⟨0, 0⟩ ⟨1, 1⟩) (.keyPressed .escape 1)
            ⟨⟨0, 0⟩, ⟨800, 600⟩⟩ ⟨5, 5⟩).1
          = VState.null ∧
      ((UViewport.new 1 1 2 Affine2.identity ⟨⟨0, 0⟩, ⟨0, 0⟩⟩).eventsHandler
          (.newView ⟨0, 0⟩ ⟨1, 1⟩) (.keyPressed .escape 1)
          ⟨⟨0, 0⟩, ⟨800, 600⟩⟩ ⟨5, 5⟩).2
        = VMsg.null := by
  have h1 : ((UViewport.new 1 1 2 Affine2.identity ⟨⟨0, 0⟩, ⟨0, 0⟩⟩).eventsHandler
      (.newView ⟨0, 0⟩ ⟨1, 1⟩) (.keyPressed .escape 1) ⟨⟨0, 0⟩, ⟨800, 600⟩⟩
      ⟨5, 5⟩).1
      = VState.newView ⟨0, 0⟩ ⟨1, 1⟩ := by
    show (if Key.escape = Key.escape ∧ (1 : ℕ) = 0 then VState.null
      else VState.newView ⟨0, 0⟩ ⟨1, 1⟩) = VState.newView ⟨0, 0⟩ ⟨1, 1⟩
    rw [if_neg (by norm_num)]
  refine ⟨h1, ?_, rfl⟩
  rw [h1]
  intro h
  exact VState.noConfusion h

/-- Claim C8 amended: an Escape key press with no modifiers in state NewView
returns the machine to Idle with no viewport message — over the whole marquee
scenario (right press, drag, modifier-free Escape) the committed transform
pair, map and zoom scale, is exactly what it was before the right press —
while an Escape carried by a nonzero modifier bitset leaves the state (and the
transform) unchanged. -/
theorem escape_cancels_marquee (v : UViewport) (csb : Box) (ca cb : Pt)
    (p0 p1 : Pt) :
    v.eventsHandler (.newView p0 p1) (.keyPressed .escape 0) csb cb
        = (VState.null, VMsg.null) ∧
      ((v.step VState.null (.buttonPressed .right) csb ca).1.step
              (v.step VState.null (.buttonPressed .right) csb ca).2 .cursorMoved csb
              cb).1.step
            ((v.step VState.null (.buttonPressed .right) csb ca).1.step
              (v.step VState.null (.buttonPressed .right) csb ca).2 .cursorMoved csb
              cb).2 (.keyPressed .escape 0) csb cb
        = (v.curposUpdate cb, VState.null) ∧
      (v.curposUpdate cb).vct = v.vct ∧ (v.curposUpdate cb).zoomScale = v.zoomScale ∧
      (∀ m : ℕ, m ≠ 0 →
        v.eventsHandler (.newView p0 p1) (.keyPressed .escape m) csb cb
          = (VState.newView p0 p1, VMsg.null)) := by
  refine ⟨by simp [UViewport.eventsHandler], ?_, rfl, rfl, fun m hm => ?_⟩
  · simp [UViewport.step, UViewport.eventsHandler, UViewport.applyMsg]
  · show (if Key.escape = Key.escape ∧ m = 0 then VState.null
        else VState.newView p0 p1, VMsg.null)
      = (VState.newView p0 p1, VMsg.null)
    rw [if_neg (by simp [hm])]

/-! Machinery for the zoom-in-then-out scenario: both the committed scale and
the cursor tracking are followed through a chain of committed wheel zooms. -/

theorem UViewport.stateInv_det_ne (v : UViewport) (h : v.StateInv) :
    v.vct.determinant ≠ 0 := by
  obtain ⟨h1, _, h3, h4, _⟩ := h
  have hpos : 0 < v.uscale := lt_of_lt_of_le h1 (h3 ▸ h4)
  intro h0
  rw [UViewport.uscale, h0] at hpos
  simp at hpos

theorem UViewport.zoomTransform_fix (v : UViewport) (k : ℝ) :
    (v.zoomTransform k).transformPoint v.curpos.2.1 = v.curpos.1 := by
  unfold UViewport.zoomTransform
  exact Affine2.thenTranslate_fix _ _ _

/-- One committed wheel zoom from a consistent state with the cursor held at
canvas point c over viewport point p: the invariant, the zoom bounds, the
scale evolution and the cursor tracking all carry over. -/
theorem UViewport.scenario_step (w : UViewport) (y s s' lo hi : ℝ) (c p : Pt)
    (hsi : w.StateInv) (hus : w.uscale = s) (hmin : w.minZoom = lo)
    (hmax : w.maxZoom = hi) (hnext : scaleNext lo hi s (wheelFactor y) = s')
    (htr : w.curpos.1 = c ∧ w.curpos.2.1 = p ∧ w.vct.transformPoint p = c) :
    (w.wheelZoom y c).StateInv ∧ (w.wheelZoom y c).uscale = s' ∧
      (w.wheelZoom y c).minZoom = lo ∧ (w.wheelZoom y c).maxZoom = hi ∧
      ((w.wheelZoom y c).curpos.1 = c ∧ (w.wheelZoom y c).curpos.2.1 = p ∧
        (w.wheelZoom y c).vct.transformPoint p = c) := by
  obtain ⟨hstep, husn⟩ := UViewport.wheelZoom_step w y c hsi
  have hus' : (w.wheelZoom y c).uscale = s' := by
    rw [husn, hus, hmin, hmax, hnext]
  have hfix : (w.zoomTransform (wheelFactor y)).transformPoint p = c := by
    have := w.zoomTransform_fix (wheelFactor y)
    rwa [htr.2.1, htr.1] at this
  have hdet : (w.zoomTransform (wheelFactor y)).determinant ≠ 0 := by
    have := (w.wheelZoom y c).stateInv_det_ne hstep
    rwa [UViewport.wheelZoom_vct] at this
  have hvfix : (w.wheelZoom y c).vct.transformPoint p = c := by
    rw [UViewport.wheelZoom_vct]
    exact hfix
  have hcur1 : (w.wheelZoom y c).curpos.1 = c := rfl
  have hcur2 : (w.wheelZoom y c).curpos.2.1 = p := by
    show (w.zoomTransform (wheelFactor y)).invUnwrap.transformPoint c = p
    rw [← hfix]
    exact Affine2.invUnwrap_transformPoint _ hdet p
  exact ⟨hstep, hus', by rw [UViewport.wheelZoom_minZoom, hmin],
    by rw [UViewport.wheelZoom_maxZoom, hmax], hcur1, hcur2, hvfix⟩

/-- Starting state of the zoom-in-then-out scenario: committed scale 10,
zoom bounds [1, 100], cursor held at canvas (100,100) over viewport (10,-10). -/
noncomputable def zoomScenarioStart : UViewport :=
  ⟨⟨10, 0, 0, -10, 0, 0⟩, 10, (⟨100, 100⟩, ⟨10, -10⟩, 10, -10), 100, 1, 1,
    ⟨⟨0, 0⟩, ⟨0, 0⟩⟩⟩

/-- Five wheel deltas y = 5 then five wheel deltas y = -5, all at the same
screen point. -/
noncomputable def zoomScenarioEvents : List (ℝ × Pt) :=
  [(5, ⟨100, 100⟩), (5, ⟨100, 100⟩), (5, ⟨100, 100⟩), (5, ⟨100, 100⟩),
    (5, ⟨100, 100⟩), (-5, ⟨100, 100⟩), (-5, ⟨100, 100⟩), (-5, ⟨100, 100⟩),
    (-5, ⟨100, 100⟩), (-5, ⟨100, 100⟩)]

theorem zoomScenario_final :
    (zoomScenarioStart.zoomSeq zoomScenarioEvents).uscale = 1 ∧
      (zoomScenarioStart.zoomSeq
          zoomScenarioEvents).cvTransform.transformPoint ⟨100, 100⟩
        = ⟨10, -10⟩ := by
  have hus0 : zoomScenarioStart.uscale = 10 := by
    rw [UViewport.uscale,
      show |zoomScenarioStart.vct.determinant| = 10 ^ 2 by
        norm_num [zoomScenarioStart, Affine2.determinant]]
    exact Real.sqrt_sq (by norm_num)
  have hsi0 : zoomScenarioStart.StateInv := by
    refine ⟨by norm_num [zoomScenarioStart], by norm_num [zoomScenarioStart], ?_, ?_, ?_⟩
    · show (10 : ℝ) = zoomScenarioStart.uscale
      rw [hus0]
    · show (1 : ℝ) ≤ 10
      norm_num
    · show (10 : ℝ) ≤ 100
      norm_num
  have htr0 : zoomScenarioStart.curpos.1 = ⟨100, 100⟩ ∧
      zoomScenarioStart.curpos.2.1 = ⟨10, -10⟩ ∧
      zoomScenarioStart.vct.transformPoint ⟨10, -10⟩ = ⟨100, 100⟩ := by
    refine ⟨rfl, rfl, ?_⟩
    ext <;> norm_num [zoomScenarioStart, Affine2.transformPoint]
  obtain ⟨si1, us1, mn1, mx1, tr1⟩ := UViewport.scenario_step _ 5 10 20 1 100 _ _
    hsi0 hus0 rfl rfl (by norm_num [scaleNext, wheelFactor, rclamp]) htr0
  obtain ⟨si2, us2, mn2, mx2, tr2⟩ := UViewport.scenario_step _ 5 20 40 1 100 _ _
    si1 us1 mn1 mx1 (by norm_num [scaleNext, wheelFactor, rclamp]) tr1
  obtain ⟨si3, us3, mn3, mx3, tr3⟩ := UViewport.scenario_step _ 5 40 80 1 100 _ _
    si2 us2 mn2 mx2 (by norm_num [scaleNext, wheelFactor, rclamp]) tr2
  obtain ⟨si4, us4, mn4, mx4, tr4⟩ := UViewport.scenario_step _ 5 80 100 1 100 _ _
    si3 us3 mn3 mx3 (by norm_num [scaleNext, wheelFactor, rclamp]) tr3
  obtain ⟨si5, us5, mn5, mx5, tr5⟩ := UViewport.scenario_step _ 5 100 100 1 100 _ _
    si4 us4 mn4 mx4 (by norm_num [scaleNext, wheelFactor, rclamp]) tr4
  obtain ⟨si6, us6, mn6, mx6, tr6⟩ := UViewport.scenario_step _ (-5) 100 1 1 100 _ _
    si5 us5 mn5 mx5 (by norm_num [scaleNext, wheelFactor, rclamp]) tr5
  obtain ⟨si7, us7, mn7, mx7, tr7⟩ := UViewport.scenario_step _ (-5) 1 1 1 100 _ _
    si6 us6 mn6 mx6 (by norm_num [scaleNext, wheelFactor, rclamp]) tr6
  obtain ⟨si8, us8, mn8, mx8, tr8⟩ := UViewport.scenario_step _ (-5) 1 1 1 100 _ _
    si7 us7 mn7 mx7 (by norm_num [scaleNext, wheelFactor, rclamp]) tr7
  obtain ⟨si9, us9, mn9, mx9, tr9⟩ := UViewport.scenario_step _ (-5) 1 1 1 100 _ _
    si8 us8 mn8 mx8 (by norm_num [scaleNext, wheelFactor, rclamp]) tr8
  obtain ⟨si10, us10, mn10, mx10, tr10⟩ := UViewport.scenario_step _ (-5) 1 1 1 100
    _ _ si9 us9 mn9 mx9 (by norm_num [scaleNext, wheelFactor, rclamp]) tr9
  refine ⟨us10, ?_⟩
  have hdet := UViewport.stateInv_det_ne _ si10
  show ((zoomScenarioStart.zoomSeq zoomScenarioEvents).vct.invUnwrap).transformPoint
    ⟨100, 100⟩ = ⟨10, -10⟩
  rw [← tr10.2.2]
  exact Affine2.invUnwrap_transformPoint _ hdet _

/-- Counterexample to claim C3 as stated: in the scenario (start scale 10,
bounds [1, 100], five y = 5 zooms then five y = -5 zooms at the same screen
point) the committed scale ends at 1, not 10: the code turns y = -5 into
requested factor 1 + (-5)/5 = 0 (not 0.5), which clamps to min_zoom — and the
zoom-ins had already saturated at max_zoom = 100. -/
theorem zoom_in_then_out_cex :
    (zoomScenarioStart.zoomSeq zoomScenarioEvents).uscale = 1 ∧
      ¬(zoomScenarioStart.zoomSeq zoomScenarioEvents).uscale = 10 := by
  refine ⟨zoomScenario_final.1, ?_⟩
  rw [zoomScenario_final.1]
  norm_num

/-- Claim C3 amended: in the same scenario the committed scale ends at
min_zoom = 1.0 (the five y = 5 zooms saturate at max_zoom = 100 and each
y = -5 zoom requests factor 0, clamped to min_zoom), while the screen point
originally under the cursor does map back to its original viewport
coordinate (10, -10). -/
theorem zoom_in_then_out_amended :
    (zoomScenarioStart.zoomSeq zoomScenarioEvents).uscale = 1 ∧
      (zoomScenarioStart.zoomSeq
          zoomScenarioEvents).cvTransform.transformPoint ⟨100, 100⟩
        = ⟨10, -10⟩ :=
  ⟨zoomScenario_final.1, zoomScenario_final.2⟩

/-- Viewport at committed zoom scale 2, used to separate the viewport-unit
deadband from a canvas-pixel deadband. -/
noncomputable def marqueeZoomTwo : UViewport :=
  ⟨⟨2, 0, 0, -2, 0, 0⟩, 2, (⟨0, 0⟩, ⟨0, 0⟩, 0, 0), 10, 1, 1, ⟨⟨0, 0⟩, ⟨0, 0⟩⟩⟩

theorem marqueeZoomTwo_cv :
    marqueeZoomTwo.cvTransform.transformPoint ⟨12, 0⟩ = ⟨6, 0⟩ := by
  have hne : marqueeZoomTwo.vct.determinant ≠ 0 := by
    norm_num [marqueeZoomTwo, Affine2.determinant]
  rw [UViewport.cvTransform, Affine2.invUnwrap, Affine2.inverse, if_neg hne,
    Option.getD_some]
  ext <;> norm_num [marqueeZoomTwo, Affine2.determinant, Affine2.transformPoint]

/-- Counterexample to claim C4 as stated: at zoom scale 2, with the marquee
anchored at viewport (0,0) (canvas (0,0)), a pointer move to canvas (12,0) is
12 canvas pixels from the anchor — beyond a 10-canvas-pixel deadband — yet
the second point is snapped back to the anchor, because the code compares the
viewport-space distance (here 6) against 10. -/
theorem marquee_deadband_cex :
    (marqueeZoomTwo.eventsHandler (.newView ⟨0, 0⟩ ⟨0, 0⟩) .cursorMoved
          ⟨⟨0, 0⟩, ⟨800, 600⟩⟩ ⟨12, 0⟩).1
        = VState.newView ⟨0, 0⟩ ⟨0, 0⟩ ∧
      ((⟨12, 0⟩ : Pt) - marqueeZoomTwo.vct.transformPoint ⟨0, 0⟩).length > 10 ∧
      ¬marqueeZoomTwo.cvTransform.transformPoint ⟨12, 0⟩ = (⟨0, 0⟩ : Pt) := by
  have hsix : ((⟨6, 0⟩ : Pt) - ⟨0, 0⟩).length = 6 := by
    rw [Pt.sub_def, Pt.length]
    norm_num
    rw [show (36 : ℝ) = 6 ^ 2 by norm_num, Real.sqrt_sq (by norm_num)]
  constructor
  · show VState.newView ⟨0, 0⟩
        (if (marqueeZoomTwo.cvTransform.transformPoint ⟨12, 0⟩ -
              (⟨0, 0⟩ : Pt)).length > 10 then
          marqueeZoomTwo.cvTransform.transformPoint ⟨12, 0⟩
        else ⟨0, 0⟩)
      = VState.newView ⟨0, 0⟩ ⟨0, 0⟩
    rw [marqueeZoomTwo_cv, hsix, if_neg (by norm_num)]
  constructor
  · have h0 : marqueeZoomTwo.vct.transformPoint ⟨0, 0⟩ = (⟨0, 0⟩ : Pt) := by
      ext <;> norm_num [marqueeZoomTwo, Affine2.transformPoint]
    rw [h0, Pt.sub_def, Pt.length]
    norm_num
    rw [show (144 : ℝ) = 12 ^ 2 by norm_num, Real.sqrt_sq (by norm_num)]
    norm_num
  · rw [marqueeZoomTwo_cv]
    intro h
    have := congrArg Pt.x h
    norm_num at this

/-- Claim C4 amended: on a pointer move in state NewView(p0, p1), in both
viewport variants, the second point becomes the live viewport cursor exactly
when its viewport-space distance from p0 exceeds 10 viewport units (which is
10 canvas pixels only at zoom scale 1), and is snapped back to p0 otherwise;
the emitted message is the cursor move. -/
theorem marquee_deadband_amended (v : UViewport) (p0 p1 : Pt) (csb : Box)
    (csp : Pt) :
    v.eventsHandler (.newView p0 p1) .cursorMoved csb csp
        = (VState.newView p0
            (if (v.cvTransform.transformPoint csp - p0).length > 10 then
              v.cvTransform.transformPoint csp
            else p0),
          VMsg.cursorMoved csp) ∧
      ((v.cvTransform.transformPoint csp - p0).length > 10 →
        (v.eventsHandler (.newView p0 p1) .cursorMoved csb csp).1
          = VState.newView p0 (v.cvTransform.transformPoint csp)) ∧
      ((v.cvTransform.transformPoint csp - p0).length ≤ 10 →
        (v.eventsHandler (.newView p0 p1) .cursorMoved csb csp).1
          = VState.newView p0 p0) ∧
      (∀ w : FAViewport,
        w.eventsHandler (.newView p0 p1) .cursorMoved csb (some csp)
          = (VState.newView p0
              (if (w.cvTransform.transformPoint csp - p0).length > 10 then
                w.cvTransform.transformPoint csp
              else p0),
            FMsg.cursorMoved csp)) := by
  refine ⟨rfl, fun h => ?_, fun h => ?_, fun w => rfl⟩
  · show VState.newView p0
        (if (v.cvTransform.transformPoint csp - p0).length > 10 then
          v.cvTransform.transformPoint csp
        else p0) = _
    rw [if_pos h]
  · show VState.newView p0
        (if (v.cvTransform.transformPoint csp - p0).length > 10 then
          v.cvTransform.transformPoint csp
        else p0) = _
    rw [if_neg (not_lt.mpr h)]

/-- Re-translating a free-aspect map so that p lands on c sends p to c. -/
theorem FreeAspect.thenTranslateFix (t : FreeAspect) (c p : Pt) :
    (t.thenTranslate (c - t.transformPoint p)).transformPoint p = c :=
  Affine2.thenTranslate_fix t.transform c p

/-- Claim C9: the free-aspect zoom clamps the x and y scale factors
independently, so both axis scales of the committed transform land in
[min_zoom, max_zoom], and the fixed-point re-translation is applied to the
per-axis-clamped transform, keeping the stored cursor viewport point at its
stored canvas point; the update commits exactly this transform. -/
theorem free_aspect_zoom_clamp (v : FAViewport) (k : ℝ) (csp : Pt)
    (h1 : 0 < v.minZoom) (h2 : v.minZoom ≤ v.maxZoom) (hx : 0 < v.vct.xScale)
    (hy : 0 < v.vct.yScale) :
    (v.zoomTransform k).xScale = rclamp (k * v.vct.xScale) v.minZoom v.maxZoom ∧
      (v.zoomTransform k).yScale = rclamp (k * v.vct.yScale) v.minZoom v.maxZoom ∧
      v.minZoom ≤ (v.zoomTransform k).xScale ∧
      (v.zoomTransform k).xScale ≤ v.maxZoom ∧
      v.minZoom ≤ (v.zoomTransform k).yScale ∧
      (v.zoomTransform k).yScale ≤ v.maxZoom ∧
      (v.zoomTransform k).transformPoint v.curpos.2.1 = v.curpos.1 ∧
      (v.applyMsg (v.zoom k csp)).vct = v.zoomTransform k := by
  have hxs : (v.zoomTransform k).xScale
      = rclamp (k * v.vct.xScale) v.minZoom v.maxZoom := by
    show v.vct.xScale * (rclamp (k * v.vct.xScale) v.minZoom v.maxZoom /
      v.vct.xScale) = _
    rw [mul_comm, div_mul_cancel₀ _ hx.ne']
  have hys : (v.zoomTransform k).yScale
      = rclamp (k * v.vct.yScale) v.minZoom v.maxZoom := by
    show v.vct.yScale * (rclamp (k * v.vct.yScale) v.minZoom v.maxZoom /
      v.vct.yScale) = _
    rw [mul_comm, div_mul_cancel₀ _ hy.ne']
  refine ⟨hxs, hys, ?_, ?_, ?_, ?_, ?_, rfl⟩
  · rw [hxs]; exact le_rclamp _ _ _ h2
  · rw [hxs]; exact rclamp_le _ _ _ h2
  · rw [hys]; exact le_rclamp _ _ _ h2
  · rw [hys]; exact rclamp_le _ _ _ h2
  · unfold FAViewport.zoomTransform
    exact FreeAspect.thenTranslateFix _ _ _

/-- Concrete instance of free_aspect_zoom_clamp: unit scales, bounds [1, 2],
factor 2. -/
theorem free_aspect_zoom_clamp_witness :
    (0 : ℝ) <
        (⟨⟨1, 1, 0, 0⟩, (⟨0, 0⟩, ⟨0, 0⟩, 0, 0), 2, 1, 1,
            ⟨⟨0, 0⟩, ⟨0, 0⟩⟩⟩ : FAViewport).minZoom ∧
      ((⟨⟨1, 1, 0, 0⟩, (⟨0, 0⟩, ⟨0, 0⟩, 0, 0), 2, 1, 1,
            ⟨⟨0, 0⟩, ⟨0, 0⟩⟩⟩ : FAViewport).zoomTransform 2).transformPoint
          (⟨⟨1, 1, 0, 0⟩, (⟨0, 0⟩, ⟨0, 0⟩, 0, 0), 2, 1, 1,
            ⟨⟨0, 0⟩, ⟨0, 0⟩⟩⟩ : FAViewport).curpos.2.1
        = (⟨⟨1, 1, 0, 0⟩, (⟨0, 0⟩, ⟨0, 0⟩, 0, 0), 2, 1, 1,
            ⟨⟨0, 0⟩, ⟨0, 0⟩⟩⟩ : FAViewport).curpos.1 :=
  ⟨by norm_num,
    (free_aspect_zoom_clamp
        ⟨⟨1, 1, 0, 0⟩, (⟨0, 0⟩, ⟨0, 0⟩, 0, 0), 2, 1, 1, ⟨⟨0, 0⟩, ⟨0, 0⟩⟩⟩ 2 ⟨0, 0⟩
        (by norm_num) (by norm_num) (by norm_num) (by norm_num)).2.2.2.2.2.2.1⟩

/-- Claim C10: device identifier equality is by the rendered NgSpice id
string (prefix then the custom string when set, the decimal ordinal
otherwise); distinct (prefix, ordinal) pairs whose renderings coincide
compare equal, and hashing is computed from the same rendered string, so
equal identifiers hash identically under any hasher. -/
theorem identifier_eq_by_ng_id :
    (∀ a b : Identifier, Identifier.eqv a b ↔ a.ngId = b.ngId) ∧
      (∀ (p : String) (n : ℕ) (s : String),
        Identifier.ngId ⟨p, n, some s⟩ = p ++ s) ∧
      (∀ (p : String) (n : ℕ), Identifier.ngId ⟨p, n, none⟩ = p ++ toString n) ∧
      Identifier.eqv ⟨"R1", 2, none⟩ ⟨"R", 12, none⟩ ∧
      ¬("R1" = "R" ∧ (2 : ℕ) = 12) ∧
      (∀ (h : String → ℕ) (a b : Identifier),
        Identifier.eqv a b → Identifier.hashWith h a = Identifier.hashWith h b) := by
  refine ⟨fun a b => Iff.rfl, fun p n s => rfl, fun p n => rfl, ?_, ?_,
    fun h a b hab => congrArg h hab⟩
  · show ("R1" ++ toString 2 : String) = "R" ++ toString 12
    rfl
  · intro h
    exact absurd h.2 (by norm_num)
